import Mathlib

/-!
Verification of the Parikshan edge agent against its specification.

The Lean definitions below are shallow embeddings of the Python sources:
* `EventQueue` models `src/edge-agent/src/event_queue.py` (the SQLite-backed
  event queue) as a pure state-passing machine over a list of rows.
* `APIClient` models the result contract of
  `src/edge-agent/src/api_client.py::submit_events`.
* `EdgeConfig` models `src/edge-agent/src/config.py` (cloud config ingestion,
  NVR URL synthesis, active-camera selection).
* `RTSPManager` models the reconnect backoff of
  `src/edge-agent/src/rtsp_manager.py::_stream_loop`.
* `EdgeAgent` models one iteration of
  `src/edge-agent/src/main.py::_event_sync_loop`.
-/

namespace EventQueue

/-- The `status` column of the `events` table: the code only ever writes
the literals `pending`, `processed`, `failed`. -/
inductive Status where
  | pending
  | processed
  | failed
deriving DecidableEq, Repr

/-- One row of the `events` table created by `_init_db`.  `created_at`
(SQL `CURRENT_TIMESTAMP`) is modelled as a `Nat` clock value supplied at
insertion time; `id` is the `AUTOINCREMENT` primary key. -/
structure EventRecord where
  id : Nat
  type : String
  camera_id : Int
  timestamp : String
  data : String
  status : Status
  retry_count : Nat
  created_at : Nat
  processed_at : Option String
deriving DecidableEq, Repr

/-- The caller-supplied part of an event, as consumed by `enqueue`. -/
structure EventInput where
  type : String
  camera_id : Int
  timestamp : String
  data : String
deriving DecidableEq, Repr

/-- The database state: the `events` table (in rowid order), the next
`AUTOINCREMENT` id, and the `processed_count` entry of the `stats` table
(which `_init_db` keeps mirrored in `self._processed_count`). -/
structure QueueState where
  events : List EventRecord
  next_id : Nat
  processed_count : Nat
deriving DecidableEq, Repr

/-- The state right after `_init_db` on a fresh database: no rows,
`AUTOINCREMENT` starts at 1, `processed_count` seeded with 0. -/
def initState : QueueState := { events := [], next_id := 1, processed_count := 0 }

/-- `EventQueue.enqueue`: INSERT a new row with default
`status='pending'`, `retry_count=0`; returns the new state and
`cursor.lastrowid`. -/
def enqueue (s : QueueState) (event : EventInput) (now : Nat) : QueueState × Nat :=
  let record : EventRecord :=
    { id := s.next_id
      type := event.type
      camera_id := event.camera_id
      timestamp := event.timestamp
      data := event.data
      status := .pending
      retry_count := 0
      created_at := now
      processed_at := none }
  ({ s with events := s.events ++ [record], next_id := s.next_id + 1 }, s.next_id)

/-- The WHERE clause of `get_pending`:
`status = 'pending' AND retry_count < 5`. -/
def drainable (r : EventRecord) : Bool :=
  decide (r.status = .pending) && decide (r.retry_count < 5)

/-- The `ORDER BY created_at ASC` comparison used by `get_pending`. -/
def createdLE (a b : EventRecord) : Prop := a.created_at ≤ b.created_at

instance : DecidableRel createdLE := fun a b => Nat.decLe a.created_at b.created_at

instance : IsTotal EventRecord createdLE := ⟨fun a b => Nat.le_total a.created_at b.created_at⟩

instance : IsTrans EventRecord createdLE := ⟨fun _ _ _ hab hbc => Nat.le_trans hab hbc⟩

/-- `EventQueue.get_pending`: `SELECT … WHERE status = 'pending' AND
retry_count < 5 ORDER BY created_at ASC LIMIT batch_size`, modelled as a
stable sort of the filtered rows followed by a prefix of length
`batch_size`. -/
def get_pending (s : QueueState) (batch_size : Nat) : List EventRecord :=
  (List.insertionSort createdLE (s.events.filter drainable)).take batch_size

/-- The per-row effect of the UPDATE in `mark_processed`: rows whose id
is listed get `status = 'processed'` and `processed_at = now`; the
WHERE clause leaves the others untouched. -/
def processRow (event_ids : List Nat) (now : String) (r : EventRecord) : EventRecord :=
  if r.id ∈ event_ids then { r with status := .processed, processed_at := some now }
  else r

/-- `EventQueue.mark_processed`: on a non-empty id list, `UPDATE events
SET status = 'processed', processed_at = now WHERE id IN ids`, then add
`len(event_ids)` to the `processed_count` counter. -/
def mark_processed (s : QueueState) (event_ids : List Nat) (now : String) : QueueState :=
  if event_ids.isEmpty then s
  else
    { s with
      events := s.events.map (processRow event_ids now)
      processed_count := s.processed_count + event_ids.length }

/-- The per-row effect of the UPDATE in `mark_failed`: rows whose id is
listed get `retry_count = retry_count + 1` and `status = CASE WHEN
retry_count >= 4 THEN 'failed' ELSE 'pending' END`, where the CASE reads
the pre-update `retry_count` as SQL row updates do. -/
def failRow (event_ids : List Nat) (r : EventRecord) : EventRecord :=
  if r.id ∈ event_ids then
    { r with
      retry_count := r.retry_count + 1
      status := if 4 ≤ r.retry_count then .failed else .pending }
  else r

/-- `EventQueue.mark_failed`: on a non-empty id list, `UPDATE events SET
retry_count = retry_count + 1, status = CASE WHEN retry_count >= 4 THEN
'failed' ELSE 'pending' END WHERE id IN ids`. -/
def mark_failed (s : QueueState) (event_ids : List Nat) : QueueState :=
  if event_ids.isEmpty then s
  else { s with events := s.events.map (failRow event_ids) }

/-- `EventQueue.cleanup_old`: DELETE terminal rows older than the cutoff. -/
def cleanup_old (s : QueueState) (cutoff : Nat) : QueueState :=
  { s with
    events := s.events.filter fun r =>
      !((decide (r.status = .processed) || decide (r.status = .failed))
        && decide (r.created_at < cutoff)) }

/-- The result of `EventQueue.get_queue_stats`: per-status row counts
plus the persistent counter (returned as `total_processed`). -/
structure QueueStats where
  pending : Nat
  processed : Nat
  failed : Nat
  total_processed : Nat
deriving DecidableEq, Repr

/-- `EventQueue.get_queue_stats`: `SELECT status, COUNT(*) … GROUP BY
status` together with `self._processed_count`. -/
def get_queue_stats (s : QueueState) : QueueStats :=
  { pending := s.events.countP fun r => decide (r.status = .pending)
    processed := s.events.countP fun r => decide (r.status = .processed)
    failed := s.events.countP fun r => decide (r.status = .failed)
    total_processed := s.processed_count }

/-- The queue operations exercised by the agent between cleanups. -/
inductive QueueOp where
  | enq (event : EventInput) (now : Nat)
  | markProcessed (ids : List Nat) (now : String)
  | markFailed (ids : List Nat)
deriving DecidableEq, Repr

/-- Run one operation against the queue state. -/
def applyOp (s : QueueState) : QueueOp → QueueState
  | .enq event now => (enqueue s event now).1
  | .markProcessed ids now => mark_processed s ids now
  | .markFailed ids => mark_failed s ids

/-- Run a sequence of operations against the queue state. -/
def applyOps (s : QueueState) (ops : List QueueOp) : QueueState :=
  ops.foldl applyOp s

end EventQueue

namespace APIClient

/-- The `{processed, failed}` body returned by `/api/edge/events`. -/
structure SubmitResult where
  processed : Nat
  failed : Nat
deriving DecidableEq, Repr

/-- Outcome of the HTTP POST in `submit_events`: the request either
raises (any exception reaches the catch-all handler), or yields a
response with a status code and — when the body parses as the expected
JSON — a parsed `SubmitResult`. -/
inductive HttpOutcome where
  | transportError
  | response (status : Nat) (body : Option SubmitResult)
deriving DecidableEq, Repr

/-- `ParikShanAPIClient.submit_events` result logic: a 200 response's
parsed body is returned; a 200 whose body fails to parse raises into the
handler; any other status or any exception yields
`{processed: 0, failed: len(events)}`. -/
def submit_events {α : Type} (events : List α) (outcome : HttpOutcome) : SubmitResult :=
  match outcome with
  | .transportError => { processed := 0, failed := events.length }
  | .response status body =>
    if status = 200 then
      match body with
      | some result => result
      | none => { processed := 0, failed := events.length }
    else { processed := 0, failed := events.length }

end APIClient

namespace EdgeAgent

open EventQueue APIClient

/-- One iteration of `EdgeAgent._event_sync_loop`: fetch up to 50
pending events; if any, submit them (the cloud's answer is the
`submit` parameter) and, when `result['processed'] > 0`, mark the first
`result['processed']` ids as processed.  No other queue call is made. -/
def eventSyncStep (s : QueueState) (submit : SubmitResult) (now : String) : QueueState :=
  let events := get_pending s 50
  if events.isEmpty then s
  else if 0 < submit.processed then
    mark_processed s ((events.take submit.processed).map EventRecord.id) now
  else s

end EdgeAgent

namespace RTSPManager

/-- Outcome of one `stream.connect()` attempt inside `_stream_loop`. -/
inductive ConnectOutcome where
  | success
  | failure
deriving DecidableEq, Repr

/-- The sleeps performed by `RTSPStreamManager._stream_loop` while
reconnecting, as a function of the sequence of connect outcomes and the
current `reconnect_delay`: a successful connect resets the delay to 5;
a failed connect sleeps `reconnect_delay` seconds and then doubles it,
capped at 60 (`min(reconnect_delay * 2, 60)`). -/
def streamLoopWaits : List ConnectOutcome → Nat → List Nat
  | [], _ => []
  | .success :: rest, _ => streamLoopWaits rest 5
  | .failure :: rest, delay => delay :: streamLoopWaits rest (min (delay * 2) 60)

end RTSPManager


namespace EdgeConfig

/-- `config.CameraConfig` dataclass. -/
structure CameraConfig where
  id : Int
  name : String
  rtsp_url : String
  type : String
  location : String
  enabled : Bool
deriving DecidableEq, Repr

/-- `config.NVRConfig` dataclass. -/
structure NVRConfig where
  id : Int
  name : String
  ip_address : String
  port : Int
  username : String
  password : String
  rtsp_template : String
  total_channels : Int
deriving DecidableEq, Repr

/-- A camera entry of the cloud config document.  Optional fields model
keys that may be absent from the JSON dict (`cam.get(...)`). -/
structure CamPayload where
  id : Int
  name : String
  rtspUrl : Option String
  nvrId : Option Int
  channelNumber : Option Int
  type : Option String
  location : Option String
  isActive : Option Bool
deriving DecidableEq, Repr

/-- An NVR entry of the cloud config document. -/
structure NvrPayload where
  id : Int
  name : String
  ipAddress : String
  port : Option Int
  username : Option String
  password : Option String
  rtspTemplate : Option String
  totalChannels : Option Int
deriving DecidableEq, Repr

/-- The `schoolConfig` section of the cloud config document. -/
structure SchoolConfigPayload where
  enableFaceRecognition : Option Bool
  enableDisciplineAlerts : Option Bool
  attendanceConfidenceThreshold : Option Int
  fightConfidenceThreshold : Option Int
deriving DecidableEq, Repr

/-- The cloud config document handed to `update_from_cloud`; each
top-level key may be absent (`if 'cameras' in cloud_config:` …). -/
structure CloudConfig where
  cameras : Option (List CamPayload)
  nvrs : Option (List NvrPayload)
  faceEncodings : Option (List String)
  schoolConfig : Option SchoolConfigPayload
deriving DecidableEq, Repr

/-- The fields of `config.Config` touched by cloud sync.  Thresholds are
exact rationals (the Python floats `80 / 100` etc. carry no further
rounding relevant to the properties proved here). -/
structure Config where
  cameras : List CameraConfig
  nvrs : List NVRConfig
  face_encodings : List String
  school_config : Option SchoolConfigPayload
  face_detection_enabled : Bool
  discipline_detection_enabled : Bool
  face_confidence_threshold : ℚ
  discipline_confidence_threshold : ℚ
deriving DecidableEq, Repr

/-- `Config.__init__` defaults for the cloud-synced fields. -/
def initConfig : Config :=
  { cameras := []
    nvrs := []
    face_encodings := []
    school_config := none
    face_detection_enabled := true
    discipline_detection_enabled := true
    face_confidence_threshold := (80 : ℚ) / 100
    discipline_confidence_threshold := (85 : ℚ) / 100 }

/-- Python truthiness of `cam.get('nvrId')`: absent keys and the id 0
are falsy. -/
def truthyInt : Option Int → Bool
  | none => false
  | some n => decide (n ≠ 0)

/-- One pass of Python `str.format` field substitution: copy characters,
and replace each `{name}` by the bound value (templates are assumed to
use only bound names).  The first argument is `none` while copying and
`some acc` while accumulating a field name between braces. -/
def substFormat (vars : List (String × String)) : Option (List Char) → List Char → List Char
  | none, [] => []
  | none, c :: rest =>
    if c = '\x7b' then substFormat vars (some []) rest
    else c :: substFormat vars none rest
  | some _, [] => []
  | some acc, c :: rest =>
    if c = '\x7d' then
      ((vars.lookup (String.mk acc.reverse)).getD "").data ++ substFormat vars none rest
    else substFormat vars (some (c :: acc)) rest

/-- `template.format(username=…, password=…, ip=…, port=…, channel=…)`
as used by `_build_nvr_rtsp_url`. -/
def formatTemplate (template : String) (username password ip : String)
    (port channel : Int) : String :=
  String.mk (substFormat
    [("username", username), ("password", password), ("ip", ip),
     ("port", toString port), ("channel", toString channel)]
    none template.data)

/-- The fallback template of `_build_nvr_rtsp_url`, used when the NVR's
`rtsp_template` is empty (Python `nvr.rtsp_template or "…"`). -/
def defaultTemplate : String :=
  "rtsp://{username}:{password}@{ip}:{port}/cam/realmonitor?channel={channel}&subtype=0"

/-- `Config._build_nvr_rtsp_url`: find the first NVR whose id equals the
camera's `nvrId` and render its template; return the empty string when
none matches. -/
def build_nvr_rtsp_url (c : Config) (camera : CamPayload) : String :=
  let channel := camera.channelNumber.getD 1
  match c.nvrs.find? (fun nvr => camera.nvrId == some nvr.id) with
  | some nvr =>
    let template := if nvr.rtsp_template = "" then defaultTemplate else nvr.rtsp_template
    formatTemplate template nvr.username nvr.password nvr.ip_address nvr.port channel
  | none => ""

/-- The `CameraConfig` built for one camera entry inside
`update_from_cloud`: when `rtspUrl` is empty (or absent) and `nvrId` is
truthy, synthesize the URL from the NVR list of the configuration `c`
in force while the camera section runs. -/
def camFromPayload (c : Config) (cam : CamPayload) : CameraConfig :=
  let rtsp0 := cam.rtspUrl.getD ""
  { id := cam.id
    name := cam.name
    rtsp_url :=
      if rtsp0 == "" && truthyInt cam.nvrId then build_nvr_rtsp_url c cam else rtsp0
    type := cam.type.getD "GENERAL"
    location := cam.location.getD ""
    enabled := cam.isActive.getD true }

/-- The `NVRConfig` built for one NVR entry inside `update_from_cloud`. -/
def nvrFromPayload (nvr : NvrPayload) : NVRConfig :=
  { id := nvr.id
    name := nvr.name
    ip_address := nvr.ipAddress
    port := nvr.port.getD 554
    username := nvr.username.getD ""
    password := nvr.password.getD ""
    rtsp_template := nvr.rtspTemplate.getD ""
    total_channels := nvr.totalChannels.getD 16 }

/-- `Config.update_from_cloud`: the four sections run in source order —
cameras (reading the pre-update NVR list), then nvrs, then face
encodings, then schoolConfig (which divides the integer thresholds by
100). -/
def update_from_cloud (c : Config) (cloud_config : CloudConfig) : Config :=
  let c1 :=
    match cloud_config.cameras with
    | some cams => { c with cameras := cams.map (camFromPayload c) }
    | none => c
  let c2 :=
    match cloud_config.nvrs with
    | some nvrs => { c1 with nvrs := nvrs.map nvrFromPayload }
    | none => c1
  let c3 :=
    match cloud_config.faceEncodings with
    | some fe => { c2 with face_encodings := fe }
    | none => c2
  match cloud_config.schoolConfig with
  | some sc =>
    { c3 with
      school_config := some sc
      face_detection_enabled := sc.enableFaceRecognition.getD true
      discipline_detection_enabled := sc.enableDisciplineAlerts.getD true
      face_confidence_threshold := ((sc.attendanceConfidenceThreshold.getD 80 : Int) : ℚ) / 100
      discipline_confidence_threshold := ((sc.fightConfidenceThreshold.getD 85 : Int) : ℚ) / 100 }
  | none => c3

/-- `Config.get_active_cameras`: enabled cameras with a non-empty
RTSP URL (Python string truthiness). -/
def get_active_cameras (c : Config) : List CameraConfig :=
  c.cameras.filter fun cam => cam.enabled && cam.rtsp_url != ""

end EdgeConfig

namespace EventQueue

/-- A queue holding two freshly enqueued events (ids 1 and 2). -/
def sampleTwoPending : QueueState :=
  applyOps initState
    [.enq ⟨"ATTENDANCE", 1, "t1", "d1"⟩ 0, .enq ⟨"DISCIPLINE", 2, "t2", "d2"⟩ 1]

/-- A queue whose single event (id 1) has been marked processed. -/
def sampleProcessedOne : QueueState :=
  applyOps initState [.enq ⟨"ATTENDANCE", 1, "t1", "d1"⟩ 0, .markProcessed [1] "t"]

/-- The pending record with id 1 and `retry_count = 4`. -/
def recordRetry4 : EventRecord := ⟨1, "A", 1, "t", "d", .pending, 4, 0, none⟩

/-- A queue whose single pending record has `retry_count = 4`. -/
def sampleRetry4 : QueueState :=
  { events := [recordRetry4], next_id := 2, processed_count := 0 }

end EventQueue

namespace EdgeConfig

/-- A cloud payload whose camera needs NVR URL synthesis and whose NVR
list contains the referenced NVR (id 1). -/
def ccSample : CloudConfig :=
  { cameras := some [⟨1, "cam", some "", some 1, some 1, none, none, none⟩]
    nvrs := some [⟨1, "nvr", "10.0.0.1", some 554, some "u", some "p", some "", some 16⟩]
    faceEncodings := none
    schoolConfig := none }

/-- A cloud payload whose camera references NVR id 9, which exists in
no NVR list of the running configuration. -/
def ccUnmatched : CloudConfig :=
  { cameras := some [⟨2, "c2", some "", some 9, some 3, none, none, some true⟩]
    nvrs := none
    faceEncodings := none
    schoolConfig := none }

end EdgeConfig

namespace EventQueue

/-- No record with id `k` can ever be drained again: every row carrying
`k` has exhausted its retries, and `k` is below the next fresh id (so no
future insert can reuse it). -/
def noDrainable (s : QueueState) (k : Nat) : Prop :=
  (∀ e ∈ s.events, e.id = k → 5 ≤ e.retry_count) ∧ k < s.next_id

/-- The discipline under which the agent's drain loop calls the queue:
`mark_processed` receives distinct ids of currently pending rows, and
`mark_failed` never receives the id of a processed row (both hold when
ids come from `get_pending`). -/
def opOK (s : QueueState) : QueueOp → Bool
  | .enq _ _ => true
  | .markProcessed ids _ =>
    decide ids.Nodup &&
      ids.all fun i => s.events.any fun r => decide (r.id = i) && decide (r.status = .pending)
  | .markFailed ids =>
    ids.all fun i => s.events.all fun r => !(decide (r.id = i) && decide (r.status = .processed))

/-- `opOK` holding along a whole operation sequence. -/
def opsOK : QueueState → List QueueOp → Bool
  | _, [] => true
  | s, op :: rest => opOK s op && opsOK (applyOp s op) rest

/-- The invariant tying the persistent `processed_count` counter to the
table contents: event ids are distinct and below `next_id`, and the
counter equals the number of processed rows. -/
def countInv (s : QueueState) : Prop :=
  (s.events.map EventRecord.id).Nodup ∧
  (∀ r ∈ s.events, r.id < s.next_id) ∧
  s.processed_count = s.events.countP fun r => decide (r.status = .processed)

end EventQueue

namespace EdgeConfig

/-- Payloads whose camera entries never trigger NVR URL synthesis: every
camera carries a non-empty `rtspUrl` or no truthy `nvrId`. -/
def camerasSafe (cc : CloudConfig) : Bool :=
  match cc.cameras with
  | none => true
  | some cams => cams.all fun cam => !(cam.rtspUrl.getD "" == "" && truthyInt cam.nvrId)

/-- A cloud payload that exercises every section without NVR synthesis:
used to instantiate the amended idempotence claim. -/
def ccSafe : CloudConfig :=
  { cameras := some [⟨1, "cam", some "rtsp://10.0.0.2/ch1", none, none, some "ENTRY", some "gate", some true⟩]
    nvrs := some [⟨1, "nvr", "10.0.0.1", some 554, some "u", some "p", some "", some 16⟩]
    faceEncodings := some ["enc1"]
    schoolConfig := some ⟨some true, some false, some 70, some 90⟩ }

end EdgeConfig

open EventQueue APIClient EdgeConfig RTSPManager

/-- C1: claimed — after a drain cycle fetching a non-empty batch whose
submission reports `processed = p`, the first `p` ids are marked
processed and every remaining id is marked failed with its retry count
bumped.  The code (`EdgeAgent._event_sync_loop`) never calls
`mark_failed`: with two pending events and a submit result
`{processed: 1, failed: 1}`, event 1 becomes processed but event 2 stays
`pending` with `retry_count = 0` and no event is in status `failed`. -/
theorem eventSyncStep_leaves_remainder_pending :
    (EdgeAgent.eventSyncStep sampleTwoPending ⟨1, 1⟩ "now").events =
      [⟨1, "ATTENDANCE", 1, "t1", "d1", .processed, 0, 0, some "now"⟩,
       ⟨2, "DISCIPLINE", 2, "t2", "d2", .pending, 0, 1, none⟩] := by decide

/-- C2 counterexample: a record already in the terminal status
`processed` is not immutable — `mark_failed` with its id moves it back
to `pending` and bumps its retry count. -/
theorem mark_failed_mutates_terminal_record :
    sampleProcessedOne.events =
      [⟨1, "ATTENDANCE", 1, "t1", "d1", .processed, 0, 0, some "t"⟩] ∧
    (mark_failed sampleProcessedOne [1]).events =
      [⟨1, "ATTENDANCE", 1, "t1", "d1", .pending, 1, 0, some "t"⟩] := by decide

/-- C2 (amended): a record in a terminal status is unchanged by
`enqueue`, and by `mark_processed` / `mark_failed` calls whose id list
does not contain its id; calls that do list its id rewrite it
regardless of status. -/
theorem terminal_record_unchanged_without_its_id (s : QueueState) (r : EventRecord)
    (hmem : r ∈ s.events) (_hterm : r.status = .processed ∨ r.status = .failed) :
    (∀ event now, r ∈ ((enqueue s event now).1).events) ∧
    (∀ ids now, r.id ∉ ids → r ∈ (mark_processed s ids now).events) ∧
    (∀ ids, r.id ∉ ids → r ∈ (mark_failed s ids).events) := by
  refine ⟨fun event now => ?_, fun ids now hnid => ?_, fun ids hnid => ?_⟩
  · exact List.mem_append_left _ hmem
  · unfold mark_processed
    by_cases h : ids.isEmpty
    · simpa [h] using hmem
    · simp only [h, Bool.false_eq_true, if_false]
      have := List.mem_map_of_mem (processRow ids now) hmem
      simpa [processRow, if_neg hnid] using this
  · unfold mark_failed
    by_cases h : ids.isEmpty
    · simpa [h] using hmem
    · simp only [h, Bool.false_eq_true, if_false]
      have := List.mem_map_of_mem (failRow ids) hmem
      simpa [failRow, if_neg hnid] using this

/-- C2 witness: the processed record of `sampleProcessedOne` survives
`mark_processed` and `mark_failed` calls targeting the unrelated id 2. -/
theorem terminal_record_unchanged_without_its_id_witness :
    (⟨1, "ATTENDANCE", 1, "t1", "d1", .processed, 0, 0, some "t"⟩ : EventRecord) ∈
      (mark_processed sampleProcessedOne [2] "u").events ∧
    (⟨1, "ATTENDANCE", 1, "t1", "d1", .processed, 0, 0, some "t"⟩ : EventRecord) ∈
      (mark_failed sampleProcessedOne [2]).events :=
  ⟨(terminal_record_unchanged_without_its_id sampleProcessedOne _ (by decide)
      (Or.inl (by decide))).2.1 [2] "u" (by decide),
   (terminal_record_unchanged_without_its_id sampleProcessedOne _ (by decide)
      (Or.inl (by decide))).2.2 [2] (by decide)⟩

/-- C3 counterexample: called with the id of a record that is already
`processed` (hence not pending), `mark_processed` does not fail: it
rewrites the record's `processed_at` and increments `processed_count`
again. -/
theorem mark_processed_ignores_non_pending :
    (mark_processed sampleProcessedOne [1] "u").events =
      [⟨1, "ATTENDANCE", 1, "t1", "d1", .processed, 0, 0, some "u"⟩] ∧
    (mark_processed sampleProcessedOne [1] "u").processed_count = 2 := by decide

/-- C3 (amended): `mark_processed` performs no pending-status check —
even for a listed record that is not pending, the record is transitioned
to `processed` (with `processed_at` set) and `processed_count` grows by
the full length of the id list. -/
theorem mark_processed_unconditional (s : QueueState) (ids : List Nat) (now : String)
    (r : EventRecord) (hmem : r ∈ s.events) (hid : r.id ∈ ids)
    (_hnp : r.status ≠ .pending) :
    { r with status := .processed, processed_at := some now } ∈
      (mark_processed s ids now).events ∧
    (mark_processed s ids now).processed_count = s.processed_count + ids.length := by
  have hne : ids.isEmpty = false := by
    cases ids with
    | nil => simp at hid
    | cons a l => rfl
  constructor
  · unfold mark_processed
    rw [hne]
    simp only [Bool.false_eq_true, if_false]
    have := List.mem_map_of_mem (processRow ids now) hmem
    simpa [processRow, if_pos hid] using this
  · simp [mark_processed, hne]

/-- C3 witness: instantiation at `sampleProcessedOne` with its already
processed record id 1. -/
theorem mark_processed_unconditional_witness :
    (⟨1, "ATTENDANCE", 1, "t1", "d1", .processed, 0, 0, some "u"⟩ : EventRecord) ∈
      (mark_processed sampleProcessedOne [1] "u").events ∧
    (mark_processed sampleProcessedOne [1] "u").processed_count =
      sampleProcessedOne.processed_count + [1].length :=
  mark_processed_unconditional sampleProcessedOne [1] "u"
    ⟨1, "ATTENDANCE", 1, "t1", "d1", .processed, 0, 0, some "t"⟩
    (by decide) (by decide) (by decide)

/-- C7: `submit_events` returns `{processed: 0, failed: len(events)}` on
a transport error and on every non-200 status; a 200 response's parsed
body is returned unchanged (and an unparsable 200 body falls into the
error handler with the same `{0, len}` result). -/
theorem submit_events_error_contract {α : Type} (events : List α) (status : Nat)
    (body : Option SubmitResult) :
    submit_events events .transportError = ⟨0, events.length⟩ ∧
    (status ≠ 200 → submit_events events (.response status body) = ⟨0, events.length⟩) ∧
    (∀ result, submit_events events (.response 200 (some result)) = result) ∧
    submit_events events (.response 200 none) = ⟨0, events.length⟩ := by
  refine ⟨rfl, fun h => ?_, fun result => rfl, rfl⟩
  simp [submit_events, h]

/-- C7 witness: a 500 response over a one-element batch yields
`{processed: 0, failed: 1}`. -/
theorem submit_events_error_contract_witness :
    (500 : Nat) ≠ 200 ∧
    submit_events ([()] : List Unit) (.response 500 none) = ⟨0, 1⟩ :=
  ⟨by decide, (submit_events_error_contract ([()] : List Unit) 500 none).2.1 (by decide)⟩

/-- Auxiliary for C9: starting from a delay of `min (5 * 2 ^ k) 60`,
`n` consecutive connect failures sleep the capped doubling ladder. -/
theorem streamLoopWaits_replicate_failure (n : Nat) :
    ∀ k, streamLoopWaits (List.replicate n .failure) (min (5 * 2 ^ k) 60) =
      (List.range n).map (fun i => min (5 * 2 ^ (k + i)) 60) := by
  induction n with
  | zero => intro k; simp [streamLoopWaits]
  | succ n ih =>
    intro k
    rw [List.replicate_succ, List.range_succ_eq_map]
    have hdouble : min (min (5 * 2 ^ k) 60 * 2) 60 = min (5 * 2 ^ (k + 1)) 60 := by
      have hpow : 5 * 2 ^ (k + 1) = 5 * 2 ^ k * 2 := by ring
      rw [hpow]
      omega
    simp only [streamLoopWaits, hdouble, ih (k + 1), List.map_cons, List.map_map,
      Nat.add_zero, List.cons.injEq, true_and]
    exact List.map_congr_left fun i _ => by
      simp only [Function.comp_apply]
      rw [show k + (i + 1) = k + 1 + i by omega]

/-- C9: the waits produced by `n` consecutive connect failures in
`_stream_loop` are `min (5 * 2 ^ i) 60` for `i = 0, …, n-1`, i.e.
5, 10, 20, 40, 60, 60, …; a successful connect resets the delay so the
next failure waits 5 s again. -/
theorem backoff_ladder :
    (∀ n, streamLoopWaits (List.replicate n .failure) 5 =
      (List.range n).map (fun i => min (5 * 2 ^ i) 60)) ∧
    (∀ delay rest, streamLoopWaits (.success :: rest) delay = streamLoopWaits rest 5) ∧
    streamLoopWaits (List.replicate 6 .failure) 5 = [5, 10, 20, 40, 60, 60] := by
  refine ⟨fun n => ?_, fun delay rest => rfl, by decide⟩
  have h := streamLoopWaits_replicate_failure n 0
  have h5 : min (5 * 2 ^ 0) 60 = 5 := by decide
  rw [h5] at h
  simpa using h

/-- Auxiliary: the cameras stored by `update_from_cloud` when the
payload carries a camera list are exactly the per-entry builds against
the pre-update configuration (the NVR section runs after the camera
section). -/
theorem update_from_cloud_cameras (c : Config) (cc : CloudConfig)
    (cams : List CamPayload) (h : cc.cameras = some cams) :
    (update_from_cloud c cc).cameras = cams.map (camFromPayload c) := by
  obtain ⟨cams0, nvrs0, fe0, sc0⟩ := cc
  simp only at h
  subst h
  cases nvrs0 <;> cases fe0 <;> cases sc0 <;> rfl

/-- C10: a cloud camera entry with an empty `rtspUrl` whose `nvrId`
matches no NVR of the configuration in force is stored with
`rtsp_url = ""`, and is therefore excluded from `get_active_cameras`
even when enabled. -/
theorem unmatched_nvr_camera_excluded (c : Config) (cc : CloudConfig)
    (cams : List CamPayload) (cam : CamPayload)
    (hcc : cc.cameras = some cams) (hmem : cam ∈ cams)
    (hurl : cam.rtspUrl.getD "" = "")
    (hnvr : ∀ nvr ∈ c.nvrs, cam.nvrId ≠ some nvr.id) :
    (camFromPayload c cam).rtsp_url = "" ∧
    camFromPayload c cam ∈ (update_from_cloud c cc).cameras ∧
    camFromPayload c cam ∉ get_active_cameras (update_from_cloud c cc) := by
  have hbuild : build_nvr_rtsp_url c cam = "" := by
    unfold build_nvr_rtsp_url
    have hfind : c.nvrs.find? (fun nvr => cam.nvrId == some nvr.id) = none := by
      rw [List.find?_eq_none]
      intro nvr hn
      simpa using hnvr nvr hn
    rw [hfind]
  have hcam : (camFromPayload c cam).rtsp_url = "" := by
    unfold camFromPayload
    cases htr : truthyInt cam.nvrId <;> simp [hurl, htr, hbuild]
  refine ⟨hcam, ?_, ?_⟩
  · rw [update_from_cloud_cameras c cc cams hcc]
    exact List.mem_map_of_mem _ hmem
  · intro hin
    have hpred := (List.mem_filter.mp hin).2
    rw [hcam] at hpred
    simp at hpred

/-- C10 witness: against the fresh configuration (empty NVR list), the
`ccUnmatched` camera entry (enabled, `rtspUrl = ""`, `nvrId = 9`) is
stored with an empty URL and is not an active camera. -/
theorem unmatched_nvr_camera_excluded_witness :
    (camFromPayload initConfig ⟨2, "c2", some "", some 9, some 3, none, none, some true⟩).rtsp_url
      = "" ∧
    camFromPayload initConfig ⟨2, "c2", some "", some 9, some 3, none, none, some true⟩ ∈
      (update_from_cloud initConfig ccUnmatched).cameras ∧
    camFromPayload initConfig ⟨2, "c2", some "", some 9, some 3, none, none, some true⟩ ∉
      get_active_cameras (update_from_cloud initConfig ccUnmatched) :=
  unmatched_nvr_camera_excluded initConfig ccUnmatched _ _ rfl (by decide) (by decide)
    (by decide)

/-- C6: `get_pending` returns at most `batch_size` records, all of them
pending rows of the queue with fewer than 5 retries, sorted by
`created_at` ascending; every returned record is at least as old as any
drainable record left behind; and on an empty queue the result is empty. -/
theorem get_pending_spec (s : QueueState) (batch_size : Nat) :
    (get_pending s batch_size).length ≤ batch_size ∧
    (∀ r ∈ get_pending s batch_size,
      r ∈ s.events ∧ r.status = .pending ∧ r.retry_count < 5) ∧
    List.Sorted createdLE (get_pending s batch_size) ∧
    (∀ r ∈ get_pending s batch_size, ∀ e ∈ s.events,
      e.status = .pending → e.retry_count < 5 → e ∉ get_pending s batch_size →
      r.created_at ≤ e.created_at) ∧
    (∀ next_id processed_count,
      get_pending ⟨[], next_id, processed_count⟩ batch_size = []) := by
  unfold get_pending
  set L := List.insertionSort createdLE (s.events.filter drainable) with hL
  have hsorted : List.Sorted createdLE L := List.sorted_insertionSort createdLE _
  have hperm : List.Perm L (s.events.filter drainable) := List.perm_insertionSort createdLE _
  refine ⟨List.length_take_le batch_size L, ?_, ?_, ?_,
    fun next_id processed_count => by simp⟩
  · intro r hr
    have hrF : r ∈ s.events.filter drainable := hperm.subset (List.mem_of_mem_take hr)
    have h2 := List.mem_filter.mp hrF
    have h3 := h2.2
    simp only [drainable, Bool.and_eq_true, decide_eq_true_eq] at h3
    exact ⟨h2.1, h3.1, h3.2⟩
  · exact List.Pairwise.sublist (List.take_sublist _ _) hsorted
  · intro r hr e he hep her hnin
    have heF : e ∈ s.events.filter drainable :=
      List.mem_filter.mpr ⟨he, by simp [drainable, hep, her]⟩
    have heL : e ∈ L := hperm.symm.subset heF
    have heL' : e ∈ L.take batch_size ++ L.drop batch_size := by
      rw [List.take_append_drop]; exact heL
    have hed : e ∈ L.drop batch_size := by
      rcases List.mem_append.mp heL' with h | h
      · exact absurd h hnin
      · exact h
    have hsorted' : List.Pairwise createdLE (L.take batch_size ++ L.drop batch_size) := by
      rw [List.take_append_drop]; exact hsorted
    exact (List.pairwise_append.mp hsorted').2.2 r hr e hed

/-- Auxiliary for C5: `noDrainable` is preserved by every queue
operation — retry counts never decrease, and fresh inserts use ids at or
above `next_id`. -/
theorem noDrainable_applyOp (s : QueueState) (k : Nat) (op : QueueOp)
    (h : noDrainable s k) : noDrainable (applyOp s op) k := by
  obtain ⟨hret, hlt⟩ := h
  cases op with
  | enq event now =>
    refine ⟨?_, Nat.lt_succ_of_lt hlt⟩
    intro e he heid
    rcases List.mem_append.mp he with h1 | h1
    · exact hret e h1 heid
    · have he' : e = _ := List.mem_singleton.mp h1
      rw [he'] at heid
      have : s.next_id = k := heid
      omega
  | markProcessed ids now =>
    show noDrainable (mark_processed s ids now) k
    unfold mark_processed
    by_cases hids : ids.isEmpty
    · rw [if_pos hids]; exact ⟨hret, hlt⟩
    · rw [if_neg hids]
      refine ⟨?_, hlt⟩
      intro e he heid
      obtain ⟨e0, he0, rfl⟩ := List.mem_map.mp he
      unfold processRow at heid ⊢
      by_cases hm : e0.id ∈ ids
      · rw [if_pos hm] at heid ⊢
        exact hret e0 he0 heid
      · rw [if_neg hm] at heid ⊢
        exact hret e0 he0 heid
  | markFailed ids =>
    show noDrainable (mark_failed s ids) k
    unfold mark_failed
    by_cases hids : ids.isEmpty
    · rw [if_pos hids]; exact ⟨hret, hlt⟩
    · rw [if_neg hids]
      refine ⟨?_, hlt⟩
      intro e he heid
      obtain ⟨e0, he0, rfl⟩ := List.mem_map.mp he
      unfold failRow at heid ⊢
      by_cases hm : e0.id ∈ ids
      · rw [if_pos hm] at heid ⊢
        have h0 : e0.id = k := heid
        have h5 := hret e0 he0 h0
        show 5 ≤ e0.retry_count + 1
        omega
      · rw [if_neg hm] at heid ⊢
        exact hret e0 he0 heid

/-- Auxiliary for C5: `noDrainable` is preserved by whole operation
sequences. -/
theorem noDrainable_applyOps (s : QueueState) (k : Nat) (ops : List QueueOp)
    (h : noDrainable s k) : noDrainable (applyOps s ops) k := by
  induction ops generalizing s with
  | nil => exact h
  | cons op rest ih => exact ih (applyOp s op) (noDrainable_applyOp s k op h)

/-- Auxiliary for C5: `get_pending` never returns a record with a
`noDrainable` id. -/
theorem get_pending_excludes (s : QueueState) (k : Nat) (h : noDrainable s k)
    (batch_size : Nat) : ∀ e ∈ get_pending s batch_size, e.id ≠ k := by
  intro e he hek
  have heF : e ∈ s.events.filter drainable :=
    (List.perm_insertionSort createdLE _).subset (List.mem_of_mem_take he)
  have h2 := List.mem_filter.mp heF
  have h3 := h2.2
  simp only [drainable, Bool.and_eq_true, decide_eq_true_eq] at h3
  have h5 := h.1 e h2.1 hek
  omega

/-- C5: `mark_failed` on a pending record bumps its retry count by one
and leaves it pending unless the post-increment count reaches 5, in
which case the record becomes `failed`; once a record with
`retryCount = 4` is failed this way, no later `get_pending` — after any
further enqueue/mark sequence — ever returns its id. -/
theorem mark_failed_pending_spec (s : QueueState) (ids : List Nat) (r : EventRecord)
    (hnodup : (s.events.map EventRecord.id).Nodup)
    (hmem : r ∈ s.events) (_hpend : r.status = .pending) (hid : r.id ∈ ids)
    (hlt : r.id < s.next_id) :
    { r with retry_count := r.retry_count + 1,
             status := if 5 ≤ r.retry_count + 1 then Status.failed else Status.pending } ∈
      (mark_failed s ids).events ∧
    (r.retry_count = 4 →
      ∀ ops batch_size e, e ∈ get_pending (applyOps (mark_failed s ids) ops) batch_size →
        e.id ≠ r.id) := by
  have hne : ids.isEmpty = false := by
    cases ids with
    | nil => simp at hid
    | cons a l => rfl
  have hif : (if 4 ≤ r.retry_count then Status.failed else Status.pending) =
      (if 5 ≤ r.retry_count + 1 then Status.failed else Status.pending) := by
    by_cases h4 : 4 ≤ r.retry_count
    · rw [if_pos h4, if_pos (by omega)]
    · rw [if_neg h4, if_neg (by omega)]
  constructor
  · unfold mark_failed
    rw [hne]
    simp only [Bool.false_eq_true, if_false]
    have := List.mem_map_of_mem (failRow ids) hmem
    simpa [failRow, if_pos hid, hif] using this
  · intro h4 ops batch_size e he
    have hnd : noDrainable (mark_failed s ids) r.id := by
      constructor
      · intro e' he' heid
        unfold mark_failed at he'
        rw [hne] at he'
        simp only [Bool.false_eq_true, if_false] at he'
        obtain ⟨e0, he0, rfl⟩ := List.mem_map.mp he'
        unfold failRow at heid ⊢
        by_cases hm : e0.id ∈ ids
        · rw [if_pos hm] at heid ⊢
          have hk : e0.id = r.id := heid
          have he0r : e0 = r := List.inj_on_of_nodup_map hnodup he0 hmem hk
          rw [he0r]
          show 5 ≤ r.retry_count + 1
          omega
        · rw [if_neg hm] at heid ⊢
          have hk : e0.id = r.id := heid
          have he0r : e0 = r := List.inj_on_of_nodup_map hnodup he0 hmem hk
          exact absurd (he0r ▸ hid) hm
      · show r.id < (mark_failed s ids).next_id
        unfold mark_failed
        rw [hne]
        simpa using hlt
    exact get_pending_excludes _ _ (noDrainable_applyOps _ _ ops hnd) batch_size e he

/-- C5 witness: in a queue whose single pending record (id 1) has
`retry_count = 4`, `mark_failed [1]` produces the terminal failed record
with retry count 5, and no later drain returns id 1. -/
theorem mark_failed_pending_spec_witness :
    recordRetry4 ∈ sampleRetry4.events ∧
    (sampleRetry4.events.map EventRecord.id).Nodup ∧
    ({ recordRetry4 with
        retry_count := recordRetry4.retry_count + 1,
        status := if 5 ≤ recordRetry4.retry_count + 1 then Status.failed
          else Status.pending } ∈ (mark_failed sampleRetry4 [1]).events ∧
      (recordRetry4.retry_count = 4 →
        ∀ ops batch_size e,
          e ∈ get_pending (applyOps (mark_failed sampleRetry4 [1]) ops) batch_size →
          e.id ≠ recordRetry4.id)) :=
  ⟨by decide, by decide,
    mark_failed_pending_spec sampleRetry4 [1] recordRetry4
      (by decide) (by decide) (by decide) (by decide) (by decide)⟩

/-- Auxiliary counting fact: `countP` of a disjunction of predicates
that never hold together splits as a sum. -/
theorem countP_or_of_disjoint {α : Type} (l : List α) (p q : α → Bool)
    (h : ∀ a ∈ l, ¬(p a = true ∧ q a = true)) :
    (l.countP fun a => p a || q a) = l.countP p + l.countP q := by
  induction l with
  | nil => simp
  | cons a l ih =>
    have ha := h a (List.mem_cons_self a l)
    have hl := ih fun x hx => h x (List.mem_cons_of_mem a hx)
    simp only [List.countP_cons, hl]
    cases hp : p a <;> cases hq : q a <;> simp [hp, hq] at ha ⊢ <;> omega

/-- Auxiliary counting fact: over rows with pairwise distinct ids, the
rows whose id lies in a duplicate-free list of present ids are counted
exactly `ids.length` times. -/
theorem countP_listed_ids (l : List EventRecord) (ids : List Nat)
    (hl : (l.map EventRecord.id).Nodup) (hids : ids.Nodup)
    (hex : ∀ i ∈ ids, ∃ r ∈ l, r.id = i) :
    (l.countP fun r => decide (r.id ∈ ids)) = ids.length := by
  induction ids with
  | nil => simp
  | cons i rest ih =>
    obtain ⟨hirest, hrest⟩ := List.nodup_cons.mp hids
    obtain ⟨r0, hr0, hid0⟩ := hex i (List.mem_cons_self i rest)
    have hsplit : (l.countP fun r => decide (r.id ∈ i :: rest)) =
        (l.countP fun r => decide (r.id = i)) + (l.countP fun r => decide (r.id ∈ rest)) := by
      rw [← countP_or_of_disjoint l _ _ ?disj]
      case disj =>
        intro a _ hand
        simp only [decide_eq_true_eq] at hand
        exact hirest (hand.1 ▸ hand.2)
      exact List.countP_congr fun x _ => by simp [List.mem_cons]
    have hone : (l.countP fun r => decide (r.id = i)) = 1 := by
      have h1 : (l.countP fun r => decide (r.id = i)) =
          ((l.map EventRecord.id).countP fun x => decide (x = i)) := by
        rw [List.countP_map]; rfl
      have h2 : ((l.map EventRecord.id).countP fun x => decide (x = i)) =
          (l.map EventRecord.id).count i := by
        rw [List.count_eq_countP]
        exact List.countP_congr fun x _ => by simp
      rw [h1, h2]
      exact List.count_eq_one_of_mem hl (List.mem_map.mpr ⟨r0, hr0, hid0⟩)
    have hrec := ih hrest fun j hj => hex j (List.mem_cons_of_mem i hj)
    rw [hsplit, hone, hrec]
    simp [Nat.add_comm]

/-- Auxiliary for C4: one well-disciplined queue operation preserves the
coherence invariant between `processed_count` and the table contents. -/
theorem countInv_applyOp (s : QueueState) (op : QueueOp)
    (hinv : countInv s) (hok : opOK s op = true) : countInv (applyOp s op) := by
  obtain ⟨hnd, hbnd, hcnt⟩ := hinv
  cases op with
  | enq event now =>
    have hev : ((enqueue s event now).1).events =
        s.events ++ [EventRecord.mk s.next_id event.type event.camera_id event.timestamp
          event.data .pending 0 now none] := rfl
    have hnid2 : ((enqueue s event now).1).next_id = s.next_id + 1 := rfl
    have hpc : ((enqueue s event now).1).processed_count = s.processed_count := rfl
    show countInv ((enqueue s event now).1)
    unfold countInv
    rw [hev, hnid2, hpc]
    refine ⟨?_, ?_, ?_⟩
    · rw [List.map_append]
      refine List.Nodup.append hnd (List.nodup_singleton _) ?_
      intro a ha hb
      obtain ⟨r, hr, hrid⟩ := List.mem_map.mp ha
      have hlt := hbnd r hr
      have hb' : a = s.next_id := by simpa using hb
      omega
    · intro r hr
      rcases List.mem_append.mp hr with h1 | h1
      · exact Nat.lt_succ_of_lt (hbnd r h1)
      · rw [List.mem_singleton.mp h1]
        exact Nat.lt_succ_self _
    · rw [List.countP_append, hcnt]
      simp [List.countP_cons]
  | markProcessed ids now =>
    show countInv (mark_processed s ids now)
    unfold mark_processed
    by_cases hids : ids.isEmpty
    · rw [if_pos hids]; exact ⟨hnd, hbnd, hcnt⟩
    · rw [if_neg hids]
      simp only [opOK, Bool.and_eq_true, decide_eq_true_eq, List.all_eq_true,
        List.any_eq_true] at hok
      obtain ⟨hidsnd, hall⟩ := hok
      have hall' : ∀ i ∈ ids, ∃ r ∈ s.events, r.id = i ∧ r.status = .pending := by
        intro i hi
        obtain ⟨r, hr, hri⟩ := hall i hi
        refine ⟨r, hr, ?_⟩
        simpa using hri
      have hid_pres : (s.events.map (processRow ids now)).map EventRecord.id =
          s.events.map EventRecord.id := by
        rw [List.map_map]
        exact List.map_congr_left fun r _ => by
          unfold processRow
          by_cases hm : r.id ∈ ids <;> simp [hm]
      refine ⟨?_, ?_, ?_⟩
      · show ((s.events.map (processRow ids now)).map EventRecord.id).Nodup
        rw [hid_pres]; exact hnd
      · intro r hr
        obtain ⟨r0, hr0, rfl⟩ := List.mem_map.mp hr
        show (processRow ids now r0).id < s.next_id
        unfold processRow
        by_cases hm : r0.id ∈ ids <;> simp [hm] <;> exact hbnd r0 hr0
      · show s.processed_count + ids.length =
          ((s.events.map (processRow ids now)).countP fun r => decide (r.status = .processed))
        rw [List.countP_map]
        have hsum : (s.events.countP
              ((fun r => decide (r.status = .processed)) ∘ processRow ids now)) =
            (s.events.countP fun r => decide (r.id ∈ ids) || decide (r.status = .processed)) := by
          refine List.countP_congr fun r _ => ?_
          unfold Function.comp processRow
          by_cases hm : r.id ∈ ids <;> simp [hm]
        have hdisj : ∀ r ∈ s.events,
            ¬(decide (r.id ∈ ids) = true ∧ decide (r.status = .processed) = true) := by
          intro r hr hand
          simp only [decide_eq_true_eq] at hand
          obtain ⟨r0, hr0, hri, hrp⟩ := hall' r.id hand.1
          have : r0 = r := List.inj_on_of_nodup_map hnd hr0 hr hri
          rw [this] at hrp
          rw [hrp] at hand
          exact absurd hand.2 (by simp)
        rw [hsum, countP_or_of_disjoint _ _ _ hdisj,
          countP_listed_ids s.events ids hnd hidsnd
            (fun i hi => (hall' i hi).imp fun r hr => ⟨hr.1, hr.2.1⟩)]
        omega
  | markFailed ids =>
    show countInv (mark_failed s ids)
    unfold mark_failed
    by_cases hids : ids.isEmpty
    · rw [if_pos hids]; exact ⟨hnd, hbnd, hcnt⟩
    · rw [if_neg hids]
      simp only [opOK, List.all_eq_true, Bool.not_eq_true', Bool.and_eq_false_iff] at hok
      have hok' : ∀ r ∈ s.events, r.id ∈ ids → r.status ≠ .processed := by
        intro r hr hri hrp
        rcases hok r.id hri r hr with h | h
        · simp at h
        · rw [hrp] at h; simp at h
      have hid_pres : (s.events.map (failRow ids)).map EventRecord.id =
          s.events.map EventRecord.id := by
        rw [List.map_map]
        exact List.map_congr_left fun r _ => by
          unfold failRow
          by_cases hm : r.id ∈ ids <;> simp [hm]
      refine ⟨?_, ?_, ?_⟩
      · show ((s.events.map (failRow ids)).map EventRecord.id).Nodup
        rw [hid_pres]; exact hnd
      · intro r hr
        obtain ⟨r0, hr0, rfl⟩ := List.mem_map.mp hr
        show (failRow ids r0).id < s.next_id
        unfold failRow
        by_cases hm : r0.id ∈ ids <;> simp [hm] <;> exact hbnd r0 hr0
      · show s.processed_count =
          ((s.events.map (failRow ids)).countP fun r => decide (r.status = .processed))
        rw [List.countP_map]
        rw [hcnt]
        refine List.countP_congr fun r hr => ?_
        unfold Function.comp failRow
        by_cases hm : r.id ∈ ids
        · have hnp := hok' r hr hm
          by_cases h4 : 4 ≤ r.retry_count <;>
            simp [hm, h4, hnp]
        · simp [hm]

/-- Auxiliary for C4: the coherence invariant is preserved along any
well-disciplined operation sequence. -/
theorem countInv_applyOps (ops : List QueueOp) (s : QueueState)
    (hinv : countInv s) (hok : opsOK s ops = true) : countInv (applyOps s ops) := by
  induction ops generalizing s with
  | nil => exact hinv
  | cons op rest ih =>
    simp only [opsOK, Bool.and_eq_true] at hok
    exact ih (applyOp s op) (countInv_applyOp s op hinv hok.1) hok.2

/-- C4 counterexample: `mark_processed` with an id that matches no row
bumps the counter without producing a processed record, so after the
sequence `[markProcessed [1]]` from the fresh queue the stats counter is
1 while no record is processed. -/
theorem processed_count_drift :
    (get_queue_stats (applyOps initState [.markProcessed [1] "t"])).total_processed ≠
      (get_queue_stats (applyOps initState [.markProcessed [1] "t"])).processed := by decide

/-- C4 (amended): starting from the fresh queue, after any sequence of
`enqueue`, `mark_processed` and `mark_failed` in which every
`mark_processed` receives distinct ids of currently pending records and
no `mark_failed` receives the id of a processed record (the discipline
of the drain loop, whose ids come from `get_pending`), the stats value
`processed_count` equals the number of records in status `processed`. -/
theorem processed_count_coherent (ops : List QueueOp)
    (hok : opsOK initState ops = true) :
    (get_queue_stats (applyOps initState ops)).total_processed =
      (get_queue_stats (applyOps initState ops)).processed := by
  have hinv0 : countInv initState := ⟨by simp [initState], by simp [initState], by simp [initState]⟩
  exact (countInv_applyOps ops initState hinv0 hok).2.2

/-- C4 witness: the valid sequence enqueue-then-mark-processed keeps the
counter and the processed-row count in step. -/
theorem processed_count_coherent_witness :
    opsOK initState [.enq ⟨"A", 1, "t", "d"⟩ 0, .markProcessed [1] "u"] = true ∧
    (get_queue_stats (applyOps initState
        [.enq ⟨"A", 1, "t", "d"⟩ 0, .markProcessed [1] "u"])).total_processed =
      (get_queue_stats (applyOps initState
        [.enq ⟨"A", 1, "t", "d"⟩ 0, .markProcessed [1] "u"])).processed :=
  ⟨by decide, processed_count_coherent _ (by decide)⟩

/-- C8 counterexample: `update_from_cloud` is not idempotent.  With
`ccSample` — a camera with empty `rtspUrl` referencing NVR 1, and NVR 1
in the same payload — the first application stores `rtsp_url = ""`
(the camera section runs against the still-empty NVR list), while the
second application synthesizes the NVR URL, so the configurations
differ. -/
theorem update_from_cloud_not_idempotent :
    update_from_cloud (update_from_cloud initConfig ccSample) ccSample ≠
      update_from_cloud initConfig ccSample := by
  intro h
  have hc := congrArg Config.cameras h
  have hne : (update_from_cloud (update_from_cloud initConfig ccSample) ccSample).cameras ≠
      (update_from_cloud initConfig ccSample).cameras := by decide
  exact hne hc

/-- Auxiliary for C8: a camera entry that does not trigger NVR URL
synthesis is built identically under any configuration. -/
theorem camFromPayload_safe (s s' : Config) (cam : CamPayload)
    (h : (cam.rtspUrl.getD "" == "" && truthyInt cam.nvrId) = false) :
    camFromPayload s cam = camFromPayload s' cam := by
  simp [camFromPayload, h]

/-- C8 (amended): applying `update_from_cloud` twice with the same
payload yields the same confidence thresholds as applying it once (the
thresholds are re-read from the raw payload and divided by 100 on each
application, never divided twice); the full configuration is equal
whenever no camera entry combines an empty `rtspUrl` with a truthy
`nvrId` — for such entries the URL is synthesized from the NVR list in
force before the same payload's NVRs are applied, so a second
application can change it. -/
theorem update_from_cloud_idempotent_amended (c : Config) (cc : CloudConfig) :
    (camerasSafe cc = true →
      update_from_cloud (update_from_cloud c cc) cc = update_from_cloud c cc) ∧
    (update_from_cloud (update_from_cloud c cc) cc).face_confidence_threshold =
      (update_from_cloud c cc).face_confidence_threshold ∧
    (update_from_cloud (update_from_cloud c cc) cc).discipline_confidence_threshold =
      (update_from_cloud c cc).discipline_confidence_threshold := by
  obtain ⟨cams0, nvrs0, fe0, sc0⟩ := cc
  refine ⟨fun hsafe => ?_, ?_, ?_⟩
  · cases cams0 with
    | none => cases nvrs0 <;> cases fe0 <;> cases sc0 <;> rfl
    | some cams =>
      have hcam : ∀ cam ∈ cams,
          (cam.rtspUrl.getD "" == "" && truthyInt cam.nvrId) = false := by
        simp only [camerasSafe, List.all_eq_true, Bool.not_eq_true'] at hsafe
        exact hsafe
      have hmapeq : ∀ s s' : Config,
          cams.map (camFromPayload s) = cams.map (camFromPayload s') := fun s s' =>
        List.map_congr_left fun cam hcm => camFromPayload_safe s s' cam (hcam cam hcm)
      cases nvrs0 <;> cases fe0 <;> cases sc0 <;>
        (simp only [update_from_cloud]; congr 1 <;> first | rfl | exact hmapeq _ _)
  · cases sc0 with
    | some sc => rfl
    | none => cases cams0 <;> cases nvrs0 <;> cases fe0 <;> rfl
  · cases sc0 with
    | some sc => rfl
    | none => cases cams0 <;> cases nvrs0 <;> cases fe0 <;> rfl

/-- C8 witness: on the safe payload `ccSafe` (camera URLs given
explicitly), two applications from the fresh configuration coincide. -/
theorem update_from_cloud_idempotent_amended_witness :
    camerasSafe ccSafe = true ∧
    update_from_cloud (update_from_cloud initConfig ccSafe) ccSafe =
      update_from_cloud initConfig ccSafe :=
  ⟨by decide, (update_from_cloud_idempotent_amended initConfig ccSafe).1 (by decide)⟩
